import Mathlib

/-!
Shallow embedding of `src/express.js` (CST3144 back-end): a small REST
backend over two Mongo collections, `lessons` and `orders`.  Route handlers
are embedded as pure functions from an explicit database state to a
response together with the successor state.  JSON values are modelled by
`JVal`; a document is an association list of field name to value, with the
Mongo `_id` kept separately as a hex string.
-/

/-- A JSON value as the handlers see it: `jnull` for `null`, booleans,
integer-valued numbers, and strings.  (The repository only ever compares
and decrements integer-valued `space`/`price` fields.) -/
inductive JVal where
  | jnull : JVal
  | jbool : Bool → JVal
  | jnum : Int → JVal
  | jstr : String → JVal
deriving DecidableEq, Repr

/-- JavaScript truthiness of a value, as used by the `!topic || !price || ...`
validation in `POST /api/lessons`: `null`, `false`, `0` and `""` are falsy. -/
def JVal.truthy : JVal → Bool
  | .jnull => false
  | .jbool b => b
  | .jnum n => n != 0
  | .jstr s => s != ""

/-- Truthiness of a possibly-absent field (`undefined` is falsy). -/
def truthyOpt : Option JVal → Bool
  | none => false
  | some v => v.truthy

/-- The fields of a document, minus `_id`: an association list. -/
abbrev Fields := List (String × JVal)

/-- First-match field lookup (JS property access / Mongo field read). -/
def getF : Fields → String → Option JVal
  | [], _ => none
  | (k', v) :: rest, k => if k' = k then some v else getF rest k

/-- Mongo `$set` of a single field: replace the first occurrence of the key,
or append the field if absent. -/
def setF : Fields → String → JVal → Fields
  | [], k, v => [(k, v)]
  | (k', v') :: rest, k, v =>
      if k' = k then (k, v) :: rest else (k', v') :: setF rest k v

/-- Mongo `$set` with an update document: set each listed field in order. -/
def setFields (fs : Fields) (updates : Fields) : Fields :=
  updates.foldl (fun acc kv => setF acc kv.1 kv.2) fs

/-- A stored document: its `_id` (as the 24-hex string the route receives)
and its other fields. -/
structure DocRec where
  rid : String
  fields : Fields
deriving DecidableEq, Repr

/-- The database state: the `lessons` and `orders` collections, in natural
(insertion) order. -/
structure DB where
  lessons : List DocRec
  orders : List Fields
deriving DecidableEq, Repr

/-- An HTTP response as the handlers produce it: a status code and the
`message` field of the JSON body. -/
structure Resp where
  status : Nat
  message : String
deriving DecidableEq, Repr

/-- Modelled from the `mongodb` driver used by `src/express.js`:
`new ObjectId(s)` succeeds on a 24-character hex string and throws
otherwise (the throw lands in the handler's `catch`, yielding 500). -/
def isValidObjectId (s : String) : Bool :=
  s.length = 24 && s.data.all (fun c => c.isDigit || ((97 ≤ c.toNat && c.toNat ≤ 102) || (65 ≤ c.toNat && c.toNat ≤ 70)))

/-- Lookup for `findOne` and `updateOne` matching on `_id`: first record with this id. -/
def findLesson : List DocRec → String → Option DocRec
  | [], _ => none
  | r :: rest, id => if r.rid = id then some r else findLesson rest id

/-- Targeted write for `updateOne` on `_id`: rewrite the first record with this id by `f`,
leave everything else in place. -/
def updateOneLesson : List DocRec → String → (DocRec → DocRec) → List DocRec
  | [], _, _ => []
  | r :: rest, id, f =>
      if r.rid = id then f r :: rest else r :: updateOneLesson rest id f

/-- Modelled from JavaScript `Number()` coercion restricted to the shapes the
data can take: digit strings (with optional sign) convert, the empty string
is `0`, anything else is `NaN` (`none`). -/
def strToNum (s : String) : Option Int :=
  match s.data with
  | [] => some 0
  | '-' :: ds =>
      if ds ≠ [] && ds.all Char.isDigit then
        some (-(ds.foldl (fun a c => a * 10 + (c.toNat - 48)) 0 : Nat))
      else none
  | '+' :: ds =>
      if ds ≠ [] && ds.all Char.isDigit then
        some ((ds.foldl (fun a c => a * 10 + (c.toNat - 48)) 0 : Nat))
      else none
  | ds =>
      if ds.all Char.isDigit then
        some ((ds.foldl (fun a c => a * 10 + (c.toNat - 48)) 0 : Nat))
      else none

/-- JavaScript numeric coercion of a JSON value; `none` is `NaN`. -/
def jsToNum : JVal → Option Int
  | .jnull => some 0
  | .jbool b => some (if b then 1 else 0)
  | .jnum n => some n
  | .jstr s => strToNum s

/-- The `lesson.space <= 0` test of the decrement handler, with JavaScript
comparison semantics: a missing field (`undefined`) or a `NaN` coercion
compares false. -/
def jsLeZero : Option JVal → Bool
  | none => false
  | some v =>
      match jsToNum v with
      | none => false
      | some n => decide (n ≤ 0)

/-- Mongo `$inc: {space: -1}` on a document: decrement a numeric `space`,
create `space: -1` when the field is absent, error (`none`) on a
non-numeric value. -/
def incSpaceField (fs : Fields) : Option Fields :=
  match getF fs "space" with
  | none => some (setF fs "space" (JVal.jnum (-1)))
  | some (JVal.jnum n) => some (setF fs "space" (JVal.jnum (n - 1)))
  | some _ => none

/-- The ten required lesson fields, in the order `POST /api/lessons`
destructures and re-assembles them. -/
def reqFields : List String :=
  ["topic", "price", "location", "space", "category", "level",
   "duration", "image", "preview", "subject"]

/-- Result of `POST /api/lessons`: the response, the `lessonId` of the body
when one is returned, and the successor state. -/
structure LessonInsertRes where
  resp : Resp
  lessonId : Option String
  db : DB
deriving DecidableEq, Repr

/-- Handler for `POST /api/lessons`: destructure the ten named fields from the body,
reject if any is falsy, otherwise store exactly those ten fields under a
fresh id (`newId` stands for the driver-generated ObjectId). -/
def postLesson (db : DB) (body : Fields) (newId : String) : LessonInsertRes :=
  if reqFields.all (fun k => truthyOpt (getF body k)) then
    let newLesson : Fields := reqFields.map (fun k => (k, (getF body k).getD JVal.jnull))
    { resp := ⟨201, "Lesson added successfully"⟩
      lessonId := some newId
      db := { db with lessons := db.lessons ++ [⟨newId, newLesson⟩] } }
  else
    { resp := ⟨400, "Missing required lesson fields"⟩, lessonId := none, db := db }

/-- Handler for `PUT /api/lessons/:id`: reject an empty body; then `new ObjectId(id)`
(an invalid id throws, caught as 500); then `updateOne` with `$set` of the
supplied fields, 404 when no record matched. -/
def putLessonUpdate (db : DB) (idStr : String) (updates : Fields) : Resp × DB :=
  if updates.length = 0 then
    (⟨400, "No fields provided to update"⟩, db)
  else if ¬ isValidObjectId idStr then
    (⟨500, "Server error"⟩, db)
  else
    match findLesson db.lessons idStr with
    | none => (⟨404, "Lesson not found"⟩, db)
    | some _ =>
        (⟨200, "Lesson updated successfully"⟩,
          { db with lessons :=
              (updateOneLesson db.lessons idStr
                (fun r => { r with fields := setFields r.fields updates })) })

/-- Handler for `PUT /api/lessons/:id/decrement`: `new ObjectId(id)` (invalid id throws,
caught as 500); `findOne` (404 when absent); the `lesson.space <= 0`
capacity check (400 when it holds); then `updateOne` with
`$inc: {space: -1}` (a non-numeric `space` makes the driver throw, caught
as 500; in this sequential model the matched record is still present, so
`modifiedCount` is 1 and the success branch replies 200). -/
def decrementLesson (db : DB) (idStr : String) : Resp × DB :=
  if ¬ isValidObjectId idStr then
    (⟨500, "Server error"⟩, db)
  else
    match findLesson db.lessons idStr with
    | none => (⟨404, "Lesson not found"⟩, db)
    | some lesson =>
        if jsLeZero (getF lesson.fields "space") then
          (⟨400, "No spaces left for this lesson"⟩, db)
        else
          match incSpaceField lesson.fields with
          | none => (⟨500, "Server error"⟩, db)
          | some fs' =>
              (⟨200, "Lesson space decremented successfully"⟩,
                { db with lessons :=
                    (updateOneLesson db.lessons idStr (fun r => { r with fields := fs' })) })

/-- Handler for `POST /api/orders`: store the body verbatim, no validation; any
`insertOne` failure (the `storeOk = false` case) is caught and reported as
400 "Insert failed". -/
def postOrder (db : DB) (body : Fields) (storeOk : Bool) : Resp × DB :=
  if storeOk then
    (⟨201, "Order saved successfully"⟩, { db with orders := db.orders ++ [body] })
  else
    (⟨400, "Insert failed"⟩, db)

/-- One character of `new RegExp(query, "i")` matching, for the pattern
subset the query strings of this development exercise: `.` matches any
character, any other character matches case-insensitively. -/
def charMatches (p c : Char) : Bool :=
  p = '.' || p.toLower = c.toLower

/-- The pattern matches a prefix of the text. -/
def matchHere : List Char → List Char → Bool
  | [], _ => true
  | _ :: _, [] => false
  | p :: ps, c :: cs => charMatches p c && matchHere ps cs

/-- Unanchored regex test (`regex.test(s)` / Mongo `$regex`): the pattern
matches starting at some position of the text. -/
def matchAnywhere (pat : List Char) : List Char → Bool
  | [] => matchHere pat []
  | c :: cs => matchHere pat (c :: cs) || matchAnywhere pat cs

/-- Full-string regex test (`searchRegex.test`): case-insensitive, unanchored. -/
def regexTest (pat s : String) : Bool :=
  matchAnywhere pat.data s.data

/-- The five-field `$or` filter of `GET /api/lessons/search`: Mongo `$regex`
matches only string-valued fields. -/
def lessonMatchesSearch (q : String) (r : DocRec) : Bool :=
  ["topic", "category", "subject", "location", "level"].any fun k =>
    match getF r.fields k with
    | some (JVal.jstr s) => regexTest q s
    | _ => false

/-- Result of `GET /api/lessons/search`: the 200 array, or an error. -/
inductive SearchResult where
  | results : List DocRec → SearchResult
  | failure : Resp → SearchResult
deriving DecidableEq, Repr

/-- Handler for `GET /api/lessons/search`: a missing or empty `q` is falsy, giving 400;
otherwise filter the lessons by the case-insensitive regex over the five
text fields. -/
def searchLessons (db : DB) (q : Option String) : SearchResult :=
  match q with
  | none => .failure ⟨400, "Search query is required"⟩
  | some qs =>
      if qs = "" then .failure ⟨400, "Search query is required"⟩
      else .results (db.lessons.filter (lessonMatchesSearch qs))

/-- The numeric `space` of a record, when it is stored as a number. -/
def spaceInt (r : DocRec) : Option Int :=
  match getF r.fields "space" with
  | some (JVal.jnum n) => some n
  | _ => none

/-- The spec's wording for search ("contains q as a substring
case-insensitively"): q is a case-insensitive prefix of the text. -/
def leadEqCI : List Char → List Char → Bool
  | [], _ => true
  | _ :: _, [] => false
  | q :: qs, c :: cs => (q.toLower = c.toLower) && leadEqCI qs cs

/-- The spec's wording for search: the text contains q as a substring,
case-insensitively. -/
def containsCI (q : List Char) : List Char → Bool
  | [] => leadEqCI q []
  | c :: cs => leadEqCI q (c :: cs) || containsCI q cs

/-- The claimed search predicate, following the spec's words: some of the
five text fields contains the query as a case-insensitive substring. -/
def lessonContainsCI (q : String) (r : DocRec) : Bool :=
  ["topic", "category", "subject", "location", "level"].any fun k =>
    match getF r.fields k with
    | some (JVal.jstr s) => containsCI q.data s.data
    | _ => false

/-- The JavaScript regex metacharacters; a query avoiding all of them is a
literal pattern. -/
def jsRegexMeta : List Char :=
  ['\\', '^', '$', '.', '*', '+', '?', '(', ')', '[', ']', '{', '}', '|']

/-- A query string that is a literal regex pattern: no metacharacters. -/
def literalPattern (q : String) : Bool :=
  q.data.all (fun c => ¬ c ∈ jsRegexMeta)

/-- Concrete lesson used by the counterexample and witness theorems: the
spec's §8 sample lesson. -/
def exLesson : DocRec :=
  ⟨"aaaaaaaaaaaaaaaaaaaaaaaa",
   [("topic", JVal.jstr "Math"), ("price", JVal.jnum 10),
    ("location", JVal.jstr "Room1"), ("space", JVal.jnum 5),
    ("category", JVal.jstr "Science"), ("level", JVal.jstr "Beginner"),
    ("duration", JVal.jstr "1h"), ("image", JVal.jstr "math.png"),
    ("preview", JVal.jstr "p"), ("subject", JVal.jstr "Math")]⟩

/-- Concrete one-lesson database for counterexamples and witnesses. -/
def exDB : DB := ⟨[exLesson], []⟩

/-- The sample lesson after one decrement: `space` is 4, all else equal. -/
def exLesson4 : DocRec :=
  ⟨"aaaaaaaaaaaaaaaaaaaaaaaa",
   [("topic", JVal.jstr "Math"), ("price", JVal.jnum 10),
    ("location", JVal.jstr "Room1"), ("space", JVal.jnum 4),
    ("category", JVal.jstr "Science"), ("level", JVal.jstr "Beginner"),
    ("duration", JVal.jstr "1h"), ("image", JVal.jstr "math.png"),
    ("preview", JVal.jstr "p"), ("subject", JVal.jstr "Math")]⟩

/-- A concrete fully-booked lesson: `space` is 0. -/
def exLesson0 : DocRec :=
  ⟨"bbbbbbbbbbbbbbbbbbbbbbbb",
   [("topic", JVal.jstr "Art"), ("price", JVal.jnum 8),
    ("location", JVal.jstr "Room2"), ("space", JVal.jnum 0),
    ("category", JVal.jstr "Crafts"), ("level", JVal.jstr "Advanced"),
    ("duration", JVal.jstr "2h"), ("image", JVal.jstr "art.png"),
    ("preview", JVal.jstr "q"), ("subject", JVal.jstr "Art")]⟩

/-- A concrete two-lesson database, one lesson fully booked. -/
def exDB2 : DB := ⟨[exLesson, exLesson0], []⟩

/-- A creation payload with all ten required fields truthy, plus an extra
field the handler must discard. -/
def goodBody : Fields :=
  [("topic", JVal.jstr "T"), ("price", JVal.jnum 7),
   ("location", JVal.jstr "L"), ("space", JVal.jnum 3),
   ("category", JVal.jstr "C"), ("level", JVal.jstr "B"),
   ("duration", JVal.jstr "1h"), ("image", JVal.jstr "i"),
   ("preview", JVal.jstr "pv"), ("subject", JVal.jstr "S"),
   ("extra", JVal.jstr "x")]

/-- A creation payload whose numeric `price` is the falsy value 0. -/
def badBody : Fields :=
  [("topic", JVal.jstr "T"), ("price", JVal.jnum 0),
   ("location", JVal.jstr "L"), ("space", JVal.jnum 3),
   ("category", JVal.jstr "C"), ("level", JVal.jstr "B"),
   ("duration", JVal.jstr "1h"), ("image", JVal.jstr "i"),
   ("preview", JVal.jstr "pv"), ("subject", JVal.jstr "S")]

/-- Setting a field then reading it back gives the new value. -/
theorem setF_getF_self (fs : Fields) (k : String) (v : JVal) :
    getF (setF fs k v) k = some v := by
  induction fs with
  | nil => simp [setF, getF]
  | cons kv rest ih =>
      obtain ⟨k0, v0⟩ := kv
      by_cases h : k0 = k
      · simp [setF, getF, h]
      · simp [setF, getF, h, ih]

/-- Setting a field leaves every other field unchanged. -/
theorem setF_getF_ne (fs : Fields) (k k' : String) (v : JVal) (h : k ≠ k') :
    getF (setF fs k v) k' = getF fs k' := by
  induction fs with
  | nil => simp [setF, getF, h]
  | cons kv rest ih =>
      obtain ⟨k0, v0⟩ := kv
      by_cases h0 : k0 = k
      · subst h0
        simp [setF, getF, h]
      · simp [setF, getF, h0, ih]

/-- A key outside an association list's domain reads as absent. -/
theorem getF_eq_none (es : Fields) (k : String) (h : k ∉ es.map Prod.fst) :
    getF es k = none := by
  induction es with
  | nil => rfl
  | cons kv rest ih =>
      obtain ⟨k0, v0⟩ := kv
      simp only [List.map_cons, List.mem_cons] at h
      push_neg at h
      have hne : ¬ k0 = k := fun hh => h.1 hh.symm
      simp [getF, hne, ih h.2]

/-- With no duplicate keys, a `$set` update document reads back as: updated
keys give the update value, other keys the original value. -/
theorem setFields_getF (updates : Fields) (fs : Fields) (k : String)
    (hnd : (updates.map Prod.fst).Nodup) :
    getF (setFields fs updates) k =
      match getF updates k with
      | some v => some v
      | none => getF fs k := by
  induction updates generalizing fs with
  | nil => simp [setFields, getF]
  | cons kv rest ih =>
      obtain ⟨k0, v0⟩ := kv
      simp only [List.map_cons, List.nodup_cons] at hnd
      have step : setFields fs ((k0, v0) :: rest) = setFields (setF fs k0 v0) rest := rfl
      rw [step, ih (setF fs k0 v0) hnd.2]
      by_cases hk : k0 = k
      · subst hk
        have hrest : getF rest k0 = none := getF_eq_none rest k0 hnd.1
        simp [getF, hrest, setF_getF_self]
      · simp [getF, hk, setF_getF_ne fs k0 k v0 hk]

/-- A targeted update preserves the collection's length. -/
theorem updateOneLesson_length (ls : List DocRec) (id : String) (f : DocRec → DocRec) :
    (updateOneLesson ls id f).length = ls.length := by
  induction ls with
  | nil => rfl
  | cons r rest ih =>
      by_cases h : r.rid = id <;> simp [updateOneLesson, h, ih]

/-- Each position of a targeted update holds either the original record, or
the rewritten record at the position `findLesson` designates. -/
theorem updateOneLesson_getQ (ls : List DocRec) (id : String) (f : DocRec → DocRec)
    (i : Nat) (r' : DocRec) (h : (updateOneLesson ls id f).get? i = some r') :
    ∃ r, ls.get? i = some r ∧
      (r' = r ∨ (r' = f r ∧ findLesson ls id = some r)) := by
  induction ls generalizing i with
  | nil => simp [updateOneLesson] at h
  | cons r0 rest ih =>
      by_cases h0 : r0.rid = id
      · cases i with
        | zero =>
            refine ⟨r0, by simp, Or.inr ⟨?_, by simp [findLesson, h0]⟩⟩
            have : (f r0 :: rest).get? 0 = some r' := by
              simpa [updateOneLesson, h0] using h
            simpa using this.symm
        | succ j =>
            refine ⟨r', ?_, Or.inl rfl⟩
            have : rest.get? j = some r' := by
              simpa [updateOneLesson, h0] using h
            simpa using this
      · cases i with
        | zero =>
            refine ⟨r0, by simp, Or.inl ?_⟩
            have : (r0 :: updateOneLesson rest id f).get? 0 = some r' := by
              simpa [updateOneLesson, h0] using h
            simpa using this.symm
        | succ j =>
            have hj : (updateOneLesson rest id f).get? j = some r' := by
              simpa [updateOneLesson, h0] using h
            obtain ⟨r, hr, hcase⟩ := ih j hj
            refine ⟨r, by simpa using hr, ?_⟩
            rcases hcase with h1 | ⟨h1, h2⟩
            · exact Or.inl h1
            · exact Or.inr ⟨h1, by simpa [findLesson, h0] using h2⟩

/-- A targeted update that preserves ids is visible through `findLesson`. -/
theorem findLesson_updateOne (ls : List DocRec) (id : String) (f : DocRec → DocRec)
    (hf : ∀ r, (f r).rid = r.rid) :
    findLesson (updateOneLesson ls id f) id = (findLesson ls id).map f := by
  induction ls with
  | nil => rfl
  | cons r rest ih =>
      by_cases h : r.rid = id
      · simp [updateOneLesson, findLesson, h, hf]
      · simp [updateOneLesson, findLesson, h, ih]

/-- Reading a keyed map built from a key list: present keys give the
generator's value, absent keys nothing. -/
theorem getF_keyMap (ks : List String) (g : String → JVal) (k : String) :
    getF (ks.map fun k0 => (k0, g k0)) k = if k ∈ ks then some (g k) else none := by
  induction ks with
  | nil => simp [getF]
  | cons k0 rest ih =>
      by_cases h : k0 = k
      · subst h
        simp [getF]
      · simp [getF, h, ih, Ne.symm h]

/-- When the id is valid, the lookup succeeds, the capacity check passes and
the `$inc` applies, the decrement handler reports success and performs the
targeted write. -/
theorem decrementLesson_write (db : DB) (idStr : String) (lesson : DocRec) (fs' : Fields)
    (hid : isValidObjectId idStr = true)
    (hfind : findLesson db.lessons idStr = some lesson)
    (hchk : jsLeZero (getF lesson.fields "space") = false)
    (hinc : incSpaceField lesson.fields = some fs') :
    decrementLesson db idStr =
      (⟨200, "Lesson space decremented successfully"⟩,
       { db with lessons :=
           (updateOneLesson db.lessons idStr (fun r => { r with fields := fs' })) }) := by
  simp [decrementLesson, hid, hfind, hchk, hinc]

/-- The decrement handler either leaves the state untouched, or performs the
single targeted write of the `$inc` branch. -/
theorem decrementLesson_db_cases (db : DB) (idStr : String) :
    (decrementLesson db idStr).2 = db ∨
    ∃ lesson fs', findLesson db.lessons idStr = some lesson ∧
      jsLeZero (getF lesson.fields "space") = false ∧
      incSpaceField lesson.fields = some fs' ∧
      (decrementLesson db idStr).2 =
        { db with lessons :=
            (updateOneLesson db.lessons idStr (fun r => { r with fields := fs' })) } := by
  by_cases hid : isValidObjectId idStr
  · cases hfind : findLesson db.lessons idStr with
    | none => exact Or.inl (by simp [decrementLesson, hid, hfind])
    | some lesson =>
        by_cases hchk : jsLeZero (getF lesson.fields "space")
        · exact Or.inl (by simp [decrementLesson, hid, hfind, hchk])
        · cases hinc : incSpaceField lesson.fields with
          | none => exact Or.inl (by simp [decrementLesson, hid, hfind, hchk, hinc])
          | some fs' =>
              refine Or.inr ⟨lesson, fs', rfl, by simpa using hchk, hinc, ?_⟩
              simp [decrementLesson, hid, hfind, hchk, hinc]
  · exact Or.inl (by simp [decrementLesson, hid])

/-- Away from the wildcard, a pattern character matches exactly the
case-insensitively equal characters. -/
theorem matchHere_noDot (pat : List Char) (hp : ∀ p ∈ pat, p ≠ '.') :
    ∀ s, matchHere pat s = leadEqCI pat s := by
  induction pat with
  | nil => intro s; cases s <;> rfl
  | cons p ps ih =>
      intro s
      cases s with
      | nil => rfl
      | cons c cs =>
          have hp0 : p ≠ '.' := hp p (by simp)
          have hps : ∀ q ∈ ps, q ≠ '.' := fun q hq => hp q (by simp [hq])
          simp [matchHere, leadEqCI, charMatches, hp0, ih hps]

/-- For a wildcard-free pattern the unanchored regex test is exactly
case-insensitive substring containment. -/
theorem matchAnywhere_noDot (pat : List Char) (hp : ∀ p ∈ pat, p ≠ '.') :
    ∀ s, matchAnywhere pat s = containsCI pat s := by
  intro s
  induction s with
  | nil => simp [matchAnywhere, containsCI, matchHere_noDot pat hp]
  | cons c cs ih =>
      simp [matchAnywhere, containsCI, matchHere_noDot pat hp, ih]

/-- A literal pattern contains no wildcard. -/
theorem literalPattern_noDot (q : String) (h : literalPattern q = true) :
    ∀ p ∈ q.data, p ≠ '.' := by
  intro p hp hdot
  subst hdot
  have := List.all_eq_true.mp h _ hp
  simp [jsRegexMeta] at this

/-- On literal patterns the handler's regex test is case-insensitive
substring containment. -/
theorem regexTest_literal (q s : String) (h : literalPattern q = true) :
    regexTest q s = containsCI q.data s.data :=
  matchAnywhere_noDot q.data (literalPattern_noDot q h) s.data

/-- On literal patterns the five-field search filter agrees with the
spec-worded substring predicate. -/
theorem lessonMatchesSearch_literal (q : String) (r : DocRec)
    (h : literalPattern q = true) :
    lessonMatchesSearch q r = lessonContainsCI q r := by
  simp only [lessonMatchesSearch, lessonContainsCI]
  congr 1
  funext k
  cases hg : getF r.fields k with
  | none => rfl
  | some v => cases v <;> simp [regexTest_literal _ _ h]

/-- A numeric `spaceInt` reading comes from a numeric stored field. -/
theorem spaceInt_some (r : DocRec) (n : Int) (h : spaceInt r = some n) :
    getF r.fields "space" = some (JVal.jnum n) := by
  unfold spaceInt at h
  cases hg : getF r.fields "space" with
  | none => rw [hg] at h; exact absurd h (by simp)
  | some v =>
      cases v with
      | jnum m => rw [hg] at h; simp at h; rw [h]
      | jnull => rw [hg] at h; exact absurd h (by simp)
      | jbool b => rw [hg] at h; exact absurd h (by simp)
      | jstr s => rw [hg] at h; exact absurd h (by simp)

/-- On a numeric `space` the `$inc` decrements it in place. -/
theorem incSpaceField_num (fs : Fields) (n : Int)
    (h : getF fs "space" = some (JVal.jnum n)) :
    incSpaceField fs = some (setF fs "space" (JVal.jnum (n - 1))) := by
  unfold incSpaceField
  rw [h]

/-- On a numeric positive `space` the capacity check lets the write
proceed. -/
theorem jsLeZero_false_of_pos (fs : Fields) (n : Int)
    (h : getF fs "space" = some (JVal.jnum n)) (hpos : 0 < n) :
    jsLeZero (getF fs "space") = false := by
  rw [h]
  simp [jsLeZero, jsToNum]
  omega

/-- C1 (counterexample): the claim says every write operation — insert,
partial update and conditional decrement — preserves `space >= 0`.  The
partial update does not: `PUT /api/lessons/:id` with body
`{space: -1}` succeeds (200) on the sample lesson whose `space` is 5 and
stores a negative `space`. -/
theorem update_can_store_negative_space :
    exDB.lessons.map spaceInt = [some 5] ∧
    (putLessonUpdate exDB "aaaaaaaaaaaaaaaaaaaaaaaa" [("space", JVal.jnum (-1))]).1 =
      ⟨200, "Lesson updated successfully"⟩ ∧
    ((putLessonUpdate exDB "aaaaaaaaaaaaaaaaaaaaaaaa"
        [("space", JVal.jnum (-1))]).2.lessons.map spaceInt) = [some (-1)] := by
  decide

/-- C1 (amended): only the conditional decrement preserves the invariant.
Any record whose stored `space` is a number `n >= 0` still holds a
nonnegative numeric `space` after a decrement call on any id; insert and
partial update perform no such check and can store a negative `space`. -/
theorem decrement_preserves_nonneg_space (db : DB) (idStr : String)
    (i : Nat) (r r' : DocRec) (n : Int)
    (hr : db.lessons.get? i = some r)
    (hr' : (decrementLesson db idStr).2.lessons.get? i = some r')
    (hsp : spaceInt r = some n) (hn : 0 ≤ n) :
    ∃ m, spaceInt r' = some m ∧ 0 ≤ m := by
  rcases decrementLesson_db_cases db idStr with hsame | ⟨lesson, fs', hfind, hchk, hinc, heq⟩
  · rw [hsame, hr] at hr'
    have he : r = r' := by injection hr'
    exact ⟨n, by rw [← he]; exact hsp, hn⟩
  · rw [heq] at hr'
    obtain ⟨r0, hr0, hcase⟩ := updateOneLesson_getQ db.lessons idStr _ i r' hr'
    rw [hr] at hr0
    have hr0e : r = r0 := by injection hr0
    subst hr0e
    rcases hcase with h1 | ⟨h1, h2⟩
    · exact ⟨n, by rw [h1]; exact hsp, hn⟩
    · rw [hfind] at h2
      have hlr : lesson = r := by injection h2
      rw [hlr] at hchk hinc
      have hget : getF r.fields "space" = some (JVal.jnum n) := spaceInt_some r n hsp
      have hpos : 0 < n := by
        rw [hget] at hchk
        simp [jsLeZero, jsToNum] at hchk
        omega
      have hfs2 : incSpaceField r.fields =
          some (setF r.fields "space" (JVal.jnum (n - 1))) :=
        incSpaceField_num r.fields n hget
      rw [hinc] at hfs2
      have hfs3 : fs' = setF r.fields "space" (JVal.jnum (n - 1)) := by
        injection hfs2
      refine ⟨n - 1, ?_, by omega⟩
      rw [h1]
      simp [spaceInt, hfs3, setF_getF_self]

/-- Witness for the amended C1 theorem at the sample database. -/
theorem decrement_preserves_nonneg_space_witness :
    ∃ m, spaceInt exLesson4 = some m ∧ 0 ≤ m :=
  decrement_preserves_nonneg_space exDB "aaaaaaaaaaaaaaaaaaaaaaaa" 0 exLesson exLesson4 5
    (by decide) (by decide) (by decide) (by decide)

/-- C2: a decrement on a stored lesson with numeric `space = n > 0`
reports 200 "Lesson space decremented successfully", stores `space = n - 1`
on that lesson, and writes nothing else: the collection keeps its length,
every position holds the old record except the targeted one, and the
orders collection is untouched. -/
theorem decrement_success_writes_once (db : DB) (idStr : String) (r : DocRec) (n : Int)
    (hid : isValidObjectId idStr = true)
    (hfind : findLesson db.lessons idStr = some r)
    (hspace : getF r.fields "space" = some (JVal.jnum n))
    (hpos : 0 < n) :
    (decrementLesson db idStr).1 = ⟨200, "Lesson space decremented successfully"⟩ ∧
    (∃ r', findLesson (decrementLesson db idStr).2.lessons idStr = some r' ∧
       getF r'.fields "space" = some (JVal.jnum (n - 1))) ∧
    (decrementLesson db idStr).2.lessons.length = db.lessons.length ∧
    (∀ i r0 r0', db.lessons.get? i = some r0 →
       (decrementLesson db idStr).2.lessons.get? i = some r0' →
       r0' = r0 ∨ (r0 = r ∧ r0' = ⟨r.rid, setF r.fields "space" (JVal.jnum (n - 1))⟩)) ∧
    (decrementLesson db idStr).2.orders = db.orders := by
  have hchk : jsLeZero (getF r.fields "space") = false :=
    jsLeZero_false_of_pos r.fields n hspace hpos
  have hinc : incSpaceField r.fields = some (setF r.fields "space" (JVal.jnum (n - 1))) :=
    incSpaceField_num r.fields n hspace
  have hd := decrementLesson_write db idStr r _ hid hfind hchk hinc
  rw [hd]
  dsimp only
  refine ⟨rfl, ?_, ?_, ?_, rfl⟩
  · refine ⟨⟨r.rid, setF r.fields "space" (JVal.jnum (n - 1))⟩, ?_, setF_getF_self _ _ _⟩
    rw [findLesson_updateOne db.lessons idStr
      (fun r1 => { r1 with fields := setF r.fields "space" (JVal.jnum (n - 1)) })
      (fun r0 => rfl), hfind]
    rfl
  · exact updateOneLesson_length _ _ _
  · intro i r0 r0' h0 h0'
    obtain ⟨r1, hr1, hcase⟩ := updateOneLesson_getQ db.lessons idStr _ i r0' h0'
    rw [h0] at hr1
    have hr1e : r0 = r1 := by injection hr1
    subst hr1e
    rcases hcase with h1 | ⟨h1, h2⟩
    · exact Or.inl h1
    · rw [hfind] at h2
      have hre : r = r0 := by injection h2
      exact Or.inr ⟨hre.symm, by rw [h1, ← hre]⟩

/-- Witness for the C2 theorem at the sample database. -/
theorem decrement_success_writes_once_witness :
    (decrementLesson exDB "aaaaaaaaaaaaaaaaaaaaaaaa").1 =
      ⟨200, "Lesson space decremented successfully"⟩ :=
  (decrement_success_writes_once exDB "aaaaaaaaaaaaaaaaaaaaaaaa" exLesson 5
    (by decide) (by decide) (by decide) (by decide)).1

/-- C3: a decrement on a stored lesson whose numeric `space` is at most 0
returns 400 "No spaces left for this lesson" and leaves the whole state
(this lesson, all other lessons, the orders) unchanged. -/
theorem decrement_no_capacity_no_write (db : DB) (idStr : String) (r : DocRec) (n : Int)
    (hid : isValidObjectId idStr = true)
    (hfind : findLesson db.lessons idStr = some r)
    (hspace : getF r.fields "space" = some (JVal.jnum n))
    (hle : n ≤ 0) :
    decrementLesson db idStr = (⟨400, "No spaces left for this lesson"⟩, db) := by
  have hchk : jsLeZero (getF r.fields "space") = true := by
    rw [hspace]
    simp [jsLeZero, jsToNum]
    omega
  simp [decrementLesson, hid, hfind, hchk]

/-- Witness for the C3 theorem at the fully-booked sample lesson. -/
theorem decrement_no_capacity_no_write_witness :
    decrementLesson exDB2 "bbbbbbbbbbbbbbbbbbbbbbbb" =
      (⟨400, "No spaces left for this lesson"⟩, exDB2) :=
  decrement_no_capacity_no_write exDB2 "bbbbbbbbbbbbbbbbbbbbbbbb" exLesson0 0
    (by decide) (by decide) (by decide) (by decide)

/-- C4: a decrement on a valid id that matches no stored lesson returns
404 "Lesson not found" and performs no write at all. -/
theorem decrement_not_found_no_write (db : DB) (idStr : String)
    (hid : isValidObjectId idStr = true)
    (hfind : findLesson db.lessons idStr = none) :
    decrementLesson db idStr = (⟨404, "Lesson not found"⟩, db) := by
  simp [decrementLesson, hid, hfind]

/-- Witness for the C4 theorem at an id absent from the sample database. -/
theorem decrement_not_found_no_write_witness :
    decrementLesson exDB "cccccccccccccccccccccccc" =
      (⟨404, "Lesson not found"⟩, exDB) :=
  decrement_not_found_no_write exDB "cccccccccccccccccccccccc" (by decide) (by decide)

/-- C5: lesson insert rejects (400, nothing stored) any payload in which
some of the ten required fields is missing or falsy — including the
numeric value 0 — and accepts (201, id returned, record appended) any
payload whose ten required fields are all truthy. -/
theorem insert_requires_ten_truthy_fields (db : DB) (body : Fields) (newId : String) :
    ((∃ k ∈ reqFields, truthyOpt (getF body k) = false) →
      postLesson db body newId =
        ⟨⟨400, "Missing required lesson fields"⟩, none, db⟩) ∧
    ((∀ k ∈ reqFields, truthyOpt (getF body k) = true) →
      (postLesson db body newId).resp = ⟨201, "Lesson added successfully"⟩ ∧
      (postLesson db body newId).lessonId = some newId ∧
      (postLesson db body newId).db.lessons = db.lessons ++
        [⟨newId, reqFields.map (fun k => (k, (getF body k).getD JVal.jnull))⟩]) := by
  constructor
  · rintro ⟨k, hk, hfalse⟩
    have hall : reqFields.all (fun k => truthyOpt (getF body k)) = false :=
      List.all_eq_false.mpr ⟨k, hk, by simp [hfalse]⟩
    simp [postLesson, hall]
  · intro h
    have hall : reqFields.all (fun k => truthyOpt (getF body k)) = true :=
      List.all_eq_true.mpr h
    refine ⟨?_, ?_, ?_⟩ <;> simp [postLesson, hall]

/-- Witness for the C5 theorem: a zero `price` is rejected, the all-truthy
payload is accepted. -/
theorem insert_requires_ten_truthy_fields_witness :
    postLesson exDB badBody "dddddddddddddddddddddddd" =
      ⟨⟨400, "Missing required lesson fields"⟩, none, exDB⟩ ∧
    (postLesson exDB goodBody "dddddddddddddddddddddddd").resp =
      ⟨201, "Lesson added successfully"⟩ := by
  constructor
  · exact (insert_requires_ten_truthy_fields exDB badBody "dddddddddddddddddddddddd").1
      ⟨"price", by decide, by decide⟩
  · exact ((insert_requires_ten_truthy_fields exDB goodBody "dddddddddddddddddddddddd").2
      (by decide)).1

/-- C6 (counterexample): the claim says search returns exactly the lessons
with a case-insensitive substring match on one of the five text fields,
for every non-empty query.  The handler feeds the query to
`new RegExp(query, "i")`, so the query `"."` (a regex wildcard) returns
the sample lesson even though none of its five fields contains the
character `"."`. -/
theorem search_dot_matches_without_substring :
    searchLessons exDB (some ".") = SearchResult.results [exLesson] ∧
    lessonContainsCI "." exLesson = false := by
  decide

/-- C6 (amended): for every non-empty query string free of regex
metacharacters, search returns exactly the lessons in which some of the
five text fields contains the query as a case-insensitive substring; a
missing query yields 400 "Search query is required". -/
theorem search_literal_exact_matches (db : DB) (q : String)
    (hne : q ≠ "") (hlit : literalPattern q = true) :
    searchLessons db (some q) =
      SearchResult.results (db.lessons.filter (lessonContainsCI q)) ∧
    searchLessons db none = SearchResult.failure ⟨400, "Search query is required"⟩ := by
  constructor
  · have hf : db.lessons.filter (lessonMatchesSearch q) =
        db.lessons.filter (lessonContainsCI q) :=
      List.filter_congr (fun r _ => lessonMatchesSearch_literal q r hlit)
    simp [searchLessons, hne, hf]
  · rfl

/-- Witness for the amended C6 theorem with the case-varying query "mAtH". -/
theorem search_literal_exact_matches_witness :
    searchLessons exDB (some "mAtH") =
      SearchResult.results (exDB.lessons.filter (lessonContainsCI "mAtH")) :=
  (search_literal_exact_matches exDB "mAtH" (by decide) (by decide)).1

/-- C7: partial update with an empty body replies 400 and changes nothing;
with a nonempty body and an id matching no record it replies 404 and
changes nothing; with a nonempty duplicate-free body and a matched record
it replies 200, sets exactly the listed fields on that record (every other
field reads back unchanged), and touches no other record and no order. -/
theorem partial_update_exact_frame (db : DB) (idStr : String) (updates : Fields) :
    (putLessonUpdate db idStr [] = (⟨400, "No fields provided to update"⟩, db)) ∧
    (updates ≠ [] → isValidObjectId idStr = true →
      findLesson db.lessons idStr = none →
      putLessonUpdate db idStr updates = (⟨404, "Lesson not found"⟩, db)) ∧
    (∀ r, updates ≠ [] → isValidObjectId idStr = true →
      (updates.map Prod.fst).Nodup →
      findLesson db.lessons idStr = some r →
      (putLessonUpdate db idStr updates).1 = ⟨200, "Lesson updated successfully"⟩ ∧
      findLesson (putLessonUpdate db idStr updates).2.lessons idStr =
        some ⟨r.rid, setFields r.fields updates⟩ ∧
      (∀ k, getF (setFields r.fields updates) k =
        match getF updates k with
        | some v => some v
        | none => getF r.fields k) ∧
      (putLessonUpdate db idStr updates).2.lessons.length = db.lessons.length ∧
      (∀ i r0 r0', db.lessons.get? i = some r0 →
        (putLessonUpdate db idStr updates).2.lessons.get? i = some r0' →
        r0' = r0 ∨ (r0 = r ∧ r0' = ⟨r.rid, setFields r.fields updates⟩)) ∧
      (putLessonUpdate db idStr updates).2.orders = db.orders) := by
  refine ⟨rfl, ?_, ?_⟩
  · intro hne hid hnone
    have hlen : ¬ updates.length = 0 := by simpa [List.length_eq_zero] using hne
    simp [putLessonUpdate, hlen, hid, hnone]
  · intro r hne hid hnd hfind
    have hlen : ¬ updates.length = 0 := by simpa [List.length_eq_zero] using hne
    have hput : putLessonUpdate db idStr updates =
        (⟨200, "Lesson updated successfully"⟩,
         { db with lessons := (updateOneLesson db.lessons idStr
             (fun r1 => { r1 with fields := setFields r1.fields updates })) }) := by
      simp [putLessonUpdate, hlen, hid, hfind]
    rw [hput]
    dsimp only
    refine ⟨rfl, ?_, ?_, updateOneLesson_length _ _ _, ?_, rfl⟩
    · rw [findLesson_updateOne db.lessons idStr
        (fun r1 => { r1 with fields := setFields r1.fields updates })
        (fun r0 => rfl), hfind]
      rfl
    · intro k
      exact setFields_getF updates r.fields k hnd
    · intro i r0 r0' h0 h0'
      obtain ⟨r1, hr1, hcase⟩ := updateOneLesson_getQ db.lessons idStr _ i r0' h0'
      rw [h0] at hr1
      have hr1e : r0 = r1 := by injection hr1
      subst hr1e
      rcases hcase with h1 | ⟨h1, h2⟩
      · exact Or.inl h1
      · rw [hfind] at h2
        have hre : r = r0 := by injection h2
        exact Or.inr ⟨hre.symm, by rw [h1, ← hre]⟩

/-- Witness for the C7 theorem: updating only `topic` succeeds. -/
theorem partial_update_exact_frame_witness :
    (putLessonUpdate exDB "aaaaaaaaaaaaaaaaaaaaaaaa" [("topic", JVal.jstr "X")]).1 =
      ⟨200, "Lesson updated successfully"⟩ :=
  ((partial_update_exact_frame exDB "aaaaaaaaaaaaaaaaaaaaaaaa"
      [("topic", JVal.jstr "X")]).2.2 exLesson (by decide) (by decide) (by decide)
      (by decide)).1

/-- C8: order insert stores the supplied object verbatim with no
validation and replies 201 "Order saved successfully"; any storage
failure is caught and mapped to the client error 400 "Insert failed"
with no state change. -/
theorem order_insert_verbatim (db : DB) (body : Fields) :
    postOrder db body true =
      (⟨201, "Order saved successfully"⟩, { db with orders := db.orders ++ [body] }) ∧
    postOrder db body false = (⟨400, "Insert failed"⟩, db) :=
  ⟨rfl, rfl⟩

/-- C9: an id that is not a 24-hex-character ObjectId makes the ObjectId
constructor throw inside both `PUT` handlers, so (for any nonempty update
body, which is checked first) the partial update and the decrement reply
500 "Server error" and write nothing. -/
theorem invalid_id_maps_to_500 (db : DB) (idStr : String) (updates : Fields)
    (hbad : isValidObjectId idStr = false) (hne : updates ≠ []) :
    putLessonUpdate db idStr updates = (⟨500, "Server error"⟩, db) ∧
    decrementLesson db idStr = (⟨500, "Server error"⟩, db) := by
  have hlen : ¬ updates.length = 0 := by simpa [List.length_eq_zero] using hne
  constructor
  · simp [putLessonUpdate, hlen, hbad]
  · simp [decrementLesson, hbad]

/-- Witness for the C9 theorem at the malformed id "zz". -/
theorem invalid_id_maps_to_500_witness :
    putLessonUpdate exDB "zz" [("topic", JVal.jstr "X")] = (⟨500, "Server error"⟩, exDB) ∧
    decrementLesson exDB "zz" = (⟨500, "Server error"⟩, exDB) :=
  invalid_id_maps_to_500 exDB "zz" [("topic", JVal.jstr "X")] (by decide) (by decide)

/-- C10: a successful lesson insert stores a record holding exactly the ten
named fields (with the payload's values) plus the generated id; any extra
payload fields are discarded. -/
theorem insert_stores_exactly_ten_fields (db : DB) (body : Fields) (newId : String)
    (h : ∀ k ∈ reqFields, truthyOpt (getF body k) = true) :
    (postLesson db body newId).db.lessons =
      db.lessons ++ [⟨newId, reqFields.map (fun k => (k, (getF body k).getD JVal.jnull))⟩] ∧
    (reqFields.map (fun k => (k, (getF body k).getD JVal.jnull))).map Prod.fst = reqFields ∧
    (∀ k, k ∈ reqFields →
      getF (reqFields.map (fun k0 => (k0, (getF body k0).getD JVal.jnull))) k = getF body k) ∧
    (∀ k, k ∉ reqFields →
      getF (reqFields.map (fun k0 => (k0, (getF body k0).getD JVal.jnull))) k = none) := by
  have hall : reqFields.all (fun k => truthyOpt (getF body k)) = true :=
    List.all_eq_true.mpr h
  have hfst : (reqFields.map (fun k => (k, (getF body k).getD JVal.jnull))).map Prod.fst =
      reqFields := by
    rw [List.map_map]
    have hcomp : (Prod.fst ∘ fun k => (k, (getF body k).getD JVal.jnull)) = id :=
      funext (fun k => rfl)
    rw [hcomp, List.map_id]
  refine ⟨by simp [postLesson, hall], hfst, ?_, ?_⟩
  · intro k hk
    rw [getF_keyMap reqFields (fun k0 => (getF body k0).getD JVal.jnull) k]
    simp only [hk, if_true]
    cases hb : getF body k with
    | none => exact absurd (h k hk) (by simp [hb, truthyOpt])
    | some v => simp [hb]
  · intro k hk
    rw [getF_keyMap reqFields (fun k0 => (getF body k0).getD JVal.jnull) k]
    simp [hk]

/-- Witness for the C10 theorem: the extra field of the sample payload is
not stored. -/
theorem insert_stores_exactly_ten_fields_witness :
    getF (reqFields.map (fun k0 => (k0, (getF goodBody k0).getD JVal.jnull))) "extra" =
      none :=
  (insert_stores_exactly_ten_fields exDB goodBody "dddddddddddddddddddddddd"
    (by decide)).2.2.2 "extra" (by decide)
